import Mathlib

/-!
Verification model of the `whispyrai/audio_processing` pipeline.

The pipeline operates on pydub `AudioSegment` values: 16-bit signed PCM
samples (the driver standardizes every file to 16 bit / mono / 16 kHz before
the later stages run).  We embed a buffer as a `List ℤ` of samples, with full
scale `32768` (pydub `max_possible_amplitude` for sample width 2).

Decibel quantities are represented by their linear-domain equivalents: a level
of `x` dBFS corresponds to the linear ratio `10^(x/20)` of full scale.  Since
`x ↦ 10^(x/20)` is a strictly monotone bijection from ℝ onto (0, ∞), every
comparison and every gain composition in the source translates exactly:
`target_dbfs` is passed as `targetLin = 10^(target_dbfs/20) > 0`,
`peak_limit_dbfs` as `limitLin = 10^(peak_limit_dbfs/20) > 0`, and the gain
factor `db_to_float(g) = 10^(g/20)` of a dB difference becomes the quotient of
the corresponding linear amplitudes.  This keeps the whole model inside ℚ and
fully executable.  Float rounding of the Python implementation is out of
scope; the float value −∞ (loudness of digital silence) is modelled
explicitly, see `Normalization.normalize_audio`.
-/

namespace AudioPipeline

/-- Full-scale amplitude for 16-bit samples: pydub `max_possible_amplitude`
is `2 ^ (8 * sample_width) / 2 = 32768` for width 2. -/
def fullScale : ℕ := 32768

/-- CPython `audioop` `fbound(val, minval, maxval)` for 16-bit width:
clamp to `maxval = 32767` above, to `minval = -32768` when `val < minval + 1`,
then round toward minus infinity. -/
def fbound (x : ℚ) : ℤ :=
  if 32767 < x then 32767
  else if x < -32767 then -32768
  else ⌊x⌋

/-- One sample of `audioop.mul(fragment, 2, factor)`: the sample is multiplied
by the (double) factor and passed through `fbound`. -/
def mulSample (factor : ℚ) (v : ℤ) : ℤ :=
  fbound (factor * (v : ℚ))

/-- pydub `AudioSegment.apply_gain(g)` is `audioop.mul(data, 2, db_to_float(g))`;
in the linear-domain model the factor `db_to_float(g) = 10^(g/20)` is passed
directly. -/
def apply_gain (samples : List ℤ) (factor : ℚ) : List ℤ :=
  samples.map (mulSample factor)

/-- pydub `AudioSegment.max` = `audioop.max(data, 2)`: the maximum absolute
sample value (0 for an empty fragment).  `max_dBFS` is
`ratio_to_db(max / max_possible_amplitude)`, i.e. in linear terms
`maxAbsSample samples / 32768` of full scale. -/
def maxAbsSample (samples : List ℤ) : ℕ :=
  samples.foldl (fun a v => Nat.max a v.natAbs) 0

/-- pydub `AudioSegment.rms` = `audioop.rms(data, 2)`: the integer truncation
of `sqrt(sum(v²)/n)`.  For naturals, `⌊sqrt (S / n : ℝ)⌋ = Nat.sqrt (S / n)`
(with `Nat` division), because for any integer `k`, `k ≤ √(S/n) ↔ k² ≤ S/n ↔
k² ≤ ⌊S/n⌋`.  `audioop.rms` of an empty fragment is 0. -/
def rmsInt (samples : List ℤ) : ℕ :=
  Nat.sqrt ((samples.foldl (fun a v => a + (v * v).toNat) 0) / samples.length)

end AudioPipeline

namespace AudioPipeline.Normalization

/-- `normalization._apply_peak_limit(audio, peak_limit_dbfs)`:
`peak = audio.max_dBFS; if peak > peak_limit_dbfs: audio =
audio.apply_gain(peak_limit_dbfs - peak); return audio`.
In linear terms: the peak exceeds the ceiling iff
`maxAbsSample samples > 32768 * limitLin`, and the attenuation factor
`db_to_float(peak_limit_dbfs - peak)` is
`limitLin / (maxAbsSample samples / 32768)`. -/
def apply_peak_limit (samples : List ℤ) (limitLin : ℚ) : List ℤ :=
  if (fullScale : ℚ) * limitLin < (maxAbsSample samples : ℚ) then
    apply_gain samples ((fullScale : ℚ) * limitLin / (maxAbsSample samples : ℚ))
  else samples

/-- `normalization.normalize_audio` (buffer mode, `save=False`):
`gain_needed = target_dbfs - audio.dBFS; audio = audio.apply_gain(gain_needed);
audio = _apply_peak_limit(audio, peak_limit_dbfs)`.

pydub `dBFS = ratio_to_db(rms / 32768)`; for a digital-silence buffer
`rms = 0` and `ratio_to_db(0) = -inf` (float), so `gain_needed = +inf`,
`db_to_float(+inf) = +inf`, and `audioop.mul` multiplies the zero samples by
`+inf`: in IEEE arithmetic `0 × ∞ = NaN` and the C cast of NaN to int is
undefined behaviour.  The model returns `none` for this undefined outcome.
Otherwise `db_to_float(target_dbfs - dBFS) = targetLin * 32768 / rms`. -/
def normalize_audio (samples : List ℤ) (targetLin limitLin : ℚ) :
    Option (List ℤ) :=
  if rmsInt samples = 0 then none
  else
    some (apply_peak_limit
      (apply_gain samples (targetLin * (fullScale : ℚ) / (rmsInt samples : ℚ)))
      limitLin)

end AudioPipeline.Normalization

namespace AudioPipeline.ClarityEnhancement

/-- `clarity_enhancement.apply_limiter(audio, max_dbfs)`:
`peak = audio.max_dBFS; if peak > max_dbfs: audio =
audio.apply_gain(max_dbfs - peak); return audio` — same linear-domain
translation as `Normalization.apply_peak_limit`. -/
def apply_limiter (samples : List ℤ) (limitLin : ℚ) : List ℤ :=
  if (AudioPipeline.fullScale : ℚ) * limitLin <
      (AudioPipeline.maxAbsSample samples : ℚ) then
    AudioPipeline.apply_gain samples
      ((AudioPipeline.fullScale : ℚ) * limitLin /
        (AudioPipeline.maxAbsSample samples : ℚ))
  else samples

end AudioPipeline.ClarityEnhancement

namespace AudioPipeline

/-- Model of `os.path.basename` for POSIX-style paths: the part after the
last `/`. -/
def pathBasename (p : String) : String :=
  (p.splitOn "/").getLastD p

/-- Model of `os.path.splitext(name)[0]` for ordinary file names: the name
with its last `.`-separated extension removed (the whole name when it has no
dot). -/
def splitextRoot (name : String) : String :=
  let parts := name.splitOn "."
  if parts.length ≤ 1 then name
  else String.intercalate "." parts.dropLast

/-- `os.path.splitext(os.path.basename(p))[0]` — the base used to derive
stage and chunk file names. -/
def baseNameNoExt (p : String) : String :=
  splitextRoot (pathBasename p)

end AudioPipeline

namespace AudioPipeline.FormatStandardization

/-- Decoded PCM audio plus format metadata: pydub `AudioSegment` viewed as
`frame_rate`, `sample_width` (bytes per sample), `channels`, and the sample
data.  `durationMs` and friends are derived and not needed here. -/
structure AudioBuffer where
  frameRate : ℕ
  sampleWidth : ℕ
  channels : ℕ
  samples : List ℤ
deriving DecidableEq, Repr

/-- pydub `AudioSegment.set_frame_rate(r)`: returns `self` unchanged when the
rate already matches (`if frame_rate == self.frame_rate: return self`);
otherwise resamples through `audioop.ratecv`, an external kernel modelled by
the parameter `ratecv`. -/
def set_frame_rate (ratecv : AudioBuffer → ℕ → AudioBuffer)
    (audio : AudioBuffer) (r : ℕ) : AudioBuffer :=
  if audio.frameRate = r then audio else ratecv audio r

/-- pydub `AudioSegment.set_sample_width(w)`: returns `self` unchanged when
the width already matches; otherwise requantizes through `audioop.lin2lin`,
an external kernel modelled by the parameter `lin2lin`. -/
def set_sample_width (lin2lin : AudioBuffer → ℕ → AudioBuffer)
    (audio : AudioBuffer) (w : ℕ) : AudioBuffer :=
  if audio.sampleWidth = w then audio else lin2lin audio w

/-- pydub `AudioSegment.set_channels(c)`: returns `self` unchanged when the
channel count already matches; otherwise remixes through `audioop.tomono` /
`tostereo`, an external kernel modelled by the parameter `remix`. -/
def set_channels (remix : AudioBuffer → ℕ → AudioBuffer)
    (audio : AudioBuffer) (c : ℕ) : AudioBuffer :=
  if audio.channels = c then audio else remix audio c

/-- `format_standardization.convert_sample_rate`: `if audio.frame_rate !=
target_sample_rate: audio = audio.set_frame_rate(target_sample_rate)`. -/
def convert_sample_rate (ratecv : AudioBuffer → ℕ → AudioBuffer)
    (audio : AudioBuffer) (target_sample_rate : ℕ) : AudioBuffer :=
  if audio.frameRate ≠ target_sample_rate then
    set_frame_rate ratecv audio target_sample_rate
  else audio

/-- `format_standardization.convert_bit_depth`: width 2 for target 16, width
3 for target 24, `raise ValueError` for anything else.  A raised exception is
modelled as `Except.error` with the source's message. -/
def convert_bit_depth (lin2lin : AudioBuffer → ℕ → AudioBuffer)
    (audio : AudioBuffer) (target_bit_depth : ℤ) : Except String AudioBuffer :=
  if target_bit_depth = 16 then .ok (set_sample_width lin2lin audio 2)
  else if target_bit_depth = 24 then .ok (set_sample_width lin2lin audio 3)
  else .error "Only 16-bit and 24-bit conversions are supported."

/-- `format_standardization.convert_channels`: `if audio.channels !=
target_channels: audio = audio.set_channels(target_channels)`. -/
def convert_channels (remix : AudioBuffer → ℕ → AudioBuffer)
    (audio : AudioBuffer) (target_channels : ℕ) : AudioBuffer :=
  if audio.channels ≠ target_channels then
    set_channels remix audio target_channels
  else audio

/-- The persistence path built by `format_standardization.process_audio` when
`save=True`: `<dirname(file_path)>/format-standardized/<base>_format_standardized.wav`. -/
def stdOutputPath (file_path : String) : String :=
  ((file_path.splitOn "/").dropLast.foldr (fun d acc => d ++ "/" ++ acc) "")
    ++ "format-standardized/" ++ AudioPipeline.baseNameNoExt file_path
    ++ "_format_standardized.wav"

/-- `format_standardization.process_audio`: validates that a source was
supplied, loads from disk when only a path is given (the preceding fleep /
mediainfo / integrity probes are printed diagnostics with no effect on the
result), applies the three conversions in order, optionally persists, and
returns the converted audio.  `decode` models the external
`AudioSegment.from_file` service; the returned list holds the paths written.
A `ValueError` raised by `convert_bit_depth` or by the save-validation is an
`Except.error`. -/
def process_audio (ratecv lin2lin remix : AudioBuffer → ℕ → AudioBuffer)
    (decode : String → AudioBuffer)
    (file_path : Option String) (audio : Option AudioBuffer)
    (target_sample_rate : ℕ) (target_bit_depth : ℤ) (target_channels : ℕ)
    (save : Bool) : Except String (AudioBuffer × List String) :=
  match audio, file_path with
  | none, none => .error "Provide either `file_path` or `audio`."
  | a?, fp =>
    let a0 := match a? with
      | some a => a
      | none => decode (fp.getD "")
    let a1 := convert_sample_rate ratecv a0 target_sample_rate
    match convert_bit_depth lin2lin a1 target_bit_depth with
    | .error e => .error e
    | .ok a2 =>
      let a3 := convert_channels remix a2 target_channels
      if save then
        match fp with
        | none => .error "save=True was requested but no `file_path` supplied."
        | some p => .ok (a3, [stdOutputPath p])
      else .ok (a3, [])

end AudioPipeline.FormatStandardization

namespace AudioPipeline.Segmentation

/-- Python signature of `segmentation.segment_audio` — seven parameters and,
notably, no `save` flag. -/
def segment_audio_params : List String :=
  ["file_path", "audio", "min_silence_len", "silence_thresh", "skip_initial",
   "output_dir", "file_name"]

/-- Chunk file path built by the export loop:
`os.path.join(output_dir, f"{base_name}_chunk_{i}.wav")`. -/
def chunkPath (output_dir base_name : String) (i : ℕ) : String :=
  output_dir ++ "/" ++ base_name ++ "_chunk_" ++ toString i ++ ".wav"

/-- Base name chosen by `segment_audio`:
`os.path.splitext(os.path.basename(file_path))[0] if file_path else file_name`. -/
def segBase (file_path : Option String) (file_name : String) : String :=
  match file_path with
  | some p => AudioPipeline.baseNameNoExt p
  | none => file_name

/-- `segmentation.segment_audio` over an abstract buffer type `α`:
validates input, loads via the external `decode` when only a path is given,
drops the initial `skip_initial` ms (`audio[skip_initial:]`, pydub
millisecond slicing, modelled by `skipSlice`), splits on silence via the
external `split` (pydub `silence.split_on_silence` with `min_silence_len`,
`silence_thresh`, `keep_silence=300`), then — with no flag guarding it —
exports every chunk as `{base_name}_chunk_{i}.wav` in `enumerate` order, and
returns the chunk list.  The second component collects the written paths in
write order. -/
def segment_audio {α : Type} (decode : String → α) (skipSlice : α → ℕ → α)
    (split : α → List α) (file_path : Option String) (audio : Option α)
    (skip_initial : ℕ) (output_dir : String) (file_name : String) :
    Except String (List α × List String) :=
  match audio, file_path with
  | none, none => .error "Provide either file_path or audio."
  | a?, fp =>
    let a0 := match a? with
      | some a => a
      | none => decode (fp.getD "")
    let chunks := split (skipSlice a0 skip_initial)
    .ok (chunks,
      chunks.enum.map (fun p => chunkPath output_dir (segBase fp file_name) p.1))

end AudioPipeline.Segmentation

namespace AudioPipeline.SilenceDetection

/-- Python signature of the effective `silence_detection.process_audio` (the
second, shadowing definition in the module): a single parameter
`audio_path` — no `audio` buffer parameter and no `save` flag. -/
def process_audio_params : List String := ["audio_path"]

/-- Keyword arguments the pipeline driver passes at `__main__.py` line 52:
`silence_detection.process_audio(file_path=file_path, save=save_steps)`. -/
def driver_silence_call_kwargs : List String := ["file_path", "save"]

/-- A Python call with these keyword arguments binds without a `TypeError`
only if every keyword names a declared parameter (the function declares no
`**kwargs`). -/
def kwargsAccepted (params kwargs : List String) : Bool :=
  kwargs.all (fun k => params.contains k)

/-- `silence_detection.detect_silent_segments`: loads the file and returns
the list of non-silent runs from pydub `split_on_silence` (external service
`split`, with `min_silence_len=1000`, `silence_thresh=-40`). -/
def detect_silent_segments (decode : String → List ℤ)
    (split : List ℤ → List (List ℤ)) (audio_path : String) : List (List ℤ) :=
  split (decode audio_path)

/-- `silence_detection.save_audio_without_silence` (effective second
definition): concatenates the runs into one buffer
(`audio_without_silence = AudioSegment.empty(); for segment: += segment`) and
exports it to `C:\Converted/{output_name}.wav`; returns the pair
(concatenated buffer, written path) that the Python code only writes to
disk. -/
def save_audio_without_silence (segments : List (List ℤ))
    (output_name : String) : List ℤ × String :=
  (segments.foldl (fun acc seg => acc ++ seg) [],
    "C:\\Converted/" ++ output_name ++ ".wav")

/-- Result of one `silence_detection.process_audio` call: the value returned
to the caller and the (path, buffer) files written. -/
structure SilenceResult where
  returned : Option (List ℤ)
  written : List (String × List ℤ)
deriving DecidableEq, Repr

/-- Effective `silence_detection.process_audio(audio_path)`: detects the
non-silent runs, writes their concatenation to disk, and — having no
`return` statement — returns Python `None`, modelled as `none`. -/
def process_audio (decode : String → List ℤ)
    (split : List ℤ → List (List ℤ)) (audio_path : String) : SilenceResult :=
  let segs := detect_silent_segments decode split audio_path
  let saved := save_audio_without_silence segs "audio_without_silence"
  { returned := none, written := [(saved.2, saved.1)] }

end AudioPipeline.SilenceDetection

namespace AudioPipeline.Driver

/-- Model of Python `str.lower()` (ASCII case folding suffices for the
extension test). -/
def lowerStr (s : String) : String := ⟨s.data.map Char.toLower⟩

/-- Model of Python `str.endswith(suffix)`. -/
def strEndsWith (s suff : String) : Bool := suff.data.isSuffixOf s.data

/-- `__main__.is_audio_file`: `any(filename.lower().endswith(ext) for ext in
[".wav", ".mp3", ".flac", ".aac", ".m4a", ".ogg"])`. -/
def is_audio_file (filename : String) : Bool :=
  [".wav", ".mp3", ".flac", ".aac", ".m4a", ".ogg"].any
    (fun ext => strEndsWith (lowerStr filename) ext)

/-- `__main__.process_all_audios`, abstracted over the per-file body `step`
(lines 29–71: standardize, segment, then the per-chunk loop).  The body
contains no `try`/`except`, so an exception raised by any stage —
`Except.error` in the model — propagates out of the `for` loop and ends the
batch.  Entries that are not files or lack a recognized extension are
skipped. -/
def process_all_audios (isFile : String → Bool)
    (step : String → Except String Unit) : List String → Except String Unit
  | [] => .ok ()
  | f :: rest =>
    if isFile f && is_audio_file f then
      match step f with
      | .error e => .error e
      | .ok _ => process_all_audios isFile step rest
    else process_all_audios isFile step rest

/-- The files whose processing is actually started by
`process_all_audios`, in order: the loop stops at the first file whose body
raises. -/
def attempted_files (isFile : String → Bool)
    (step : String → Except String Unit) : List String → List String
  | [] => []
  | f :: rest =>
    if isFile f && is_audio_file f then
      match step f with
      | .error _ => [f]
      | .ok _ => f :: attempted_files isFile step rest
    else attempted_files isFile step rest

/-- The order in which the inner loop of `process_all_audios` (lines 44–50)
processes the segmented chunks: it walks `os.listdir(input_dir +
"/segmented")` in listing order, keeping the entries that are files with a
recognized audio extension. -/
def driver_chunk_order (isFile : String → Bool) : List String → List String
  | [] => []
  | f :: rest =>
    if isFile f && is_audio_file f then f :: driver_chunk_order isFile rest
    else driver_chunk_order isFile rest

/-- Chunk file names in strict emission order, as produced by
`segmentation.segment_audio` for a base name and chunk count. -/
def chunk_names (base : String) (n : ℕ) : List String :=
  (List.range n).map (fun i => base ++ "_chunk_" ++ toString i ++ ".wav")

/-- A per-file pipeline body in which the first file's decode raises an
external-service failure and every other file succeeds — the concrete
failing scenario for the batch-continuation claim. -/
def failing_step : String → Except String Unit := fun f =>
  if f = "a.wav" then .error "decode failed" else .ok ()

end AudioPipeline.Driver

namespace AudioPipeline

/-! Helper lemmas about the sample-level primitives. -/

theorem foldl_max_le {B : ℚ} :
    ∀ (l : List ℤ) (a : ℕ), (a : ℚ) ≤ B → (∀ v ∈ l, ((v.natAbs : ℕ) : ℚ) ≤ B) →
      ((l.foldl (fun a v => Nat.max a v.natAbs) a : ℕ) : ℚ) ≤ B := by
  intro l
  induction l with
  | nil => intro a ha _; simpa using ha
  | cons v t ih =>
      intro a ha hmem
      simp only [List.foldl_cons]
      refine ih _ ?_ fun w hw => hmem w (List.mem_cons_of_mem _ hw)
      have hv := hmem v (List.mem_cons_self _ _)
      rw [Nat.cast_max]
      exact max_le ha hv

theorem maxAbsSample_le {l : List ℤ} {B : ℚ} (h0 : 0 ≤ B)
    (h : ∀ v ∈ l, ((v.natAbs : ℕ) : ℚ) ≤ B) : (maxAbsSample l : ℚ) ≤ B :=
  foldl_max_le l 0 (by simpa using h0) h

theorem le_foldl_max :
    ∀ (l : List ℤ) (a : ℕ), a ≤ l.foldl (fun a v => Nat.max a v.natAbs) a ∧
      ∀ v ∈ l, v.natAbs ≤ l.foldl (fun a v => Nat.max a v.natAbs) a := by
  intro l
  induction l with
  | nil => intro a; exact ⟨le_refl _, by simp⟩
  | cons v t ih =>
      intro a
      simp only [List.foldl_cons]
      obtain ⟨h1, h2⟩ := ih (Nat.max a v.natAbs)
      refine ⟨le_trans (Nat.le_max_left _ _) h1, ?_⟩
      intro w hw
      rcases List.mem_cons.mp hw with rfl | hw
      · exact le_trans (Nat.le_max_right _ _) h1
      · exact h2 w hw

theorem natAbs_le_maxAbsSample {l : List ℤ} {v : ℤ} (hv : v ∈ l) :
    v.natAbs ≤ maxAbsSample l :=
  (le_foldl_max l 0).2 v hv

theorem cast_natAbs_rat (v : ℤ) : ((v.natAbs : ℕ) : ℚ) = |(v : ℚ)| := by
  rw [Int.cast_natAbs, Int.cast_abs]

/-- One `audioop.mul` step with the static-limiter factor `lam / m` maps any
sample of magnitude at most `m` to a sample of magnitude at most `lam + 1`:
the exact product has magnitude at most `lam`, and `fbound` floors toward
minus infinity, which can add up to one quantization unit on negative
samples. -/
theorem mulSample_abs_le {lam m : ℚ} (v : ℤ) (hm : 0 < m) (hlam : 0 < lam)
    (hv : ((v.natAbs : ℕ) : ℚ) ≤ m) :
    (((mulSample (lam / m) v).natAbs : ℕ) : ℚ) ≤ lam + 1 := by
  have hvabs : |(v : ℚ)| ≤ m := by rwa [cast_natAbs_rat] at hv
  have hfac : 0 < lam / m := div_pos hlam hm
  have hx : |lam / m * (v : ℚ)| ≤ lam := by
    rw [abs_mul, abs_of_pos hfac]
    calc lam / m * |(v : ℚ)| ≤ lam / m * m :=
          mul_le_mul_of_nonneg_left hvabs (le_of_lt hfac)
      _ = lam := div_mul_cancel₀ lam (ne_of_gt hm)
  rw [mulSample, fbound]
  split
  · rename_i h
    have : (32767 : ℚ) < lam := lt_of_lt_of_le h (le_trans (le_abs_self _) hx)
    rw [cast_natAbs_rat, abs_of_pos (by norm_num : (0:ℚ) < ((32767:ℤ):ℚ))]
    push_cast
    linarith
  · split
    · rename_i h1 h2
      have : (32767 : ℚ) < lam := by
        have := neg_le_abs (lam / m * (v : ℚ))
        linarith
      rw [cast_natAbs_rat, abs_of_neg (by norm_num : ((-32768:ℤ):ℚ) < 0)]
      push_cast
      linarith
    · have hup : (⌊lam / m * (v : ℚ)⌋ : ℚ) ≤ lam :=
        le_trans (Int.floor_le _) (le_trans (le_abs_self _) hx)
      have hdown : -(lam + 1) ≤ (⌊lam / m * (v : ℚ)⌋ : ℚ) := by
        have h1 : lam / m * (v : ℚ) - 1 < (⌊lam / m * (v : ℚ)⌋ : ℚ) :=
          Int.sub_one_lt_floor _
        have h2 : -lam ≤ lam / m * (v : ℚ) := by
          have := neg_le_abs (lam / m * (v : ℚ))
          linarith
        linarith
      rw [cast_natAbs_rat, abs_le]
      exact ⟨hdown, by linarith⟩

/-- The output peak of the static peak limiter never exceeds the linear
ceiling by a full quantization unit. -/
theorem apply_peak_limit_peak_le (g : List ℤ) (limitLin : ℚ)
    (hl : 0 < limitLin) :
    (maxAbsSample (Normalization.apply_peak_limit g limitLin) : ℚ) ≤
      (fullScale : ℚ) * limitLin + 1 := by
  have hlam : 0 < (fullScale : ℚ) * limitLin := by
    have h32 : (0:ℚ) < (fullScale : ℚ) := by norm_num [fullScale]
    positivity
  rw [Normalization.apply_peak_limit]
  split
  · rename_i hbranch
    have hm : (0:ℚ) < (maxAbsSample g : ℚ) := lt_trans hlam hbranch
    refine maxAbsSample_le (by linarith) ?_
    intro w hw
    rw [apply_gain] at hw
    obtain ⟨v, hv, rfl⟩ := List.mem_map.mp hw
    have hvle : ((v.natAbs : ℕ) : ℚ) ≤ (maxAbsSample g : ℚ) := by
      exact_mod_cast natAbs_le_maxAbsSample hv
    exact mulSample_abs_le v hm hlam hvle
  · rename_i hbranch
    push_neg at hbranch
    linarith

theorem enum_map_index {α β : Type} (l : List α) (g : ℕ → β) :
    l.enum.map (fun p => g p.1) = (List.range l.length).map g := by
  rw [List.enum_eq_zip_range]
  rw [show (fun p : ℕ × α => g p.1) = g ∘ Prod.fst from rfl, ← List.map_map]
  rw [List.map_fst_zip _ _ (by simp)]

end AudioPipeline

namespace AudioPipeline

/-! Claim theorems. -/

/-- C1: the spec claims `process_all_audios` catches per-file failures and
continues, so a batch attempts all files and finishes successfully.  The
driver's per-file body has no `try`/`except`: with a body that raises an
external-service failure on `a.wav` and succeeds on `b.wav`, the batch over
`[a.wav, b.wav]` ends with the propagated error, only `a.wav` is attempted,
and `b.wav` — which on its own would process fine — is never reached. -/
theorem batch_aborts_on_first_file_failure :
    Driver.process_all_audios (fun _ => true) Driver.failing_step
        ["a.wav", "b.wav"] = .error "decode failed" ∧
    Driver.attempted_files (fun _ => true) Driver.failing_step
        ["a.wav", "b.wav"] = ["a.wav"] ∧
    Driver.process_all_audios (fun _ => true) Driver.failing_step
        ["b.wav"] = .ok () := by
  refine ⟨?_, ?_, ?_⟩ <;> rfl

/-- C2: the spec claims an all-silence buffer must yield no gain and an
unchanged buffer.  In the code `gain_needed = target_dbfs - audio.dBFS` with
`dBFS = -inf` for silence, so the gain is `+inf` and `audioop.mul` evaluates
`0 × ∞ = NaN` with an undefined integer cast — not the unchanged buffer.
For every target and peak-limit parameter, the model yields the undefined
outcome `none` on the all-zero buffer instead of `some [0, 0, 0, 0]`. -/
theorem normalize_audio_all_silence_undefined :
    ∀ targetLin limitLin : ℚ,
      rmsInt [0, 0, 0, 0] = 0 ∧
      Normalization.normalize_audio [0, 0, 0, 0] targetLin limitLin = none := by
  intro t l
  constructor
  · simp [rmsInt]
  · simp [Normalization.normalize_audio, rmsInt]

/-- C3: the spec claims the silence-removal stage accepts a path or a
buffer and returns the concatenated speech runs as a buffer.  The effective
`silence_detection.process_audio` declares the single parameter
`audio_path` — so the driver's keyword call `(file_path=…, save=…)` raises a
`TypeError` — and, called correctly, it writes the concatenation to
`C:\Converted/audio_without_silence.wav` and returns Python `None`, not the
buffer. -/
theorem silence_stage_signature_and_return :
    SilenceDetection.kwargsAccepted SilenceDetection.process_audio_params
      SilenceDetection.driver_silence_call_kwargs = false ∧
    "audio" ∉ SilenceDetection.process_audio_params ∧
    ∀ (decode : String → List ℤ) (split : List ℤ → List (List ℤ)) (p : String),
      (SilenceDetection.process_audio decode split p).returned = none ∧
      (SilenceDetection.process_audio decode split p).written =
        [("C:\\Converted/audio_without_silence.wav",
          (split (decode p)).foldl (fun acc seg => acc ++ seg) [])] := by
  refine ⟨rfl, by decide, fun _ _ _ => ⟨rfl, rfl⟩⟩

/-- C4 counterexample: for the buffer `[-16384, 16384]` with linear target
`1` (0 dBFS) and linear peak limit `3/5` (≈ −4.44 dBFS), the limiter floors
the negative peak from exactly `-32768·(3/5) = -19660.8` down to `-19661`,
so the output peak `19661` strictly exceeds the linear ceiling
`32768·(3/5) = 19660.8`: the claimed "output peak never exceeds the peak
limit" is false as stated. -/
theorem normalize_audio_output_peak_can_exceed_limit :
    Normalization.normalize_audio [-16384, 16384] 1 (3/5) =
      some [-19661, 19660] ∧
    (fullScale : ℚ) * (3/5) < (maxAbsSample [-19661, 19660] : ℚ) := by
  have h1 : rmsInt [-16384, 16384] = 16384 := by
    rw [show rmsInt [-16384, 16384] = Nat.sqrt 268435456 from rfl]
    norm_num
  constructor
  · rw [Normalization.normalize_audio, h1]
    norm_num [Normalization.apply_peak_limit, apply_gain, mulSample, fbound,
      maxAbsSample, fullScale, Int.floor_eq_iff]
  · norm_num [maxAbsSample, fullScale]

/-- C4 (amended): `normalize_audio` first applies the uniform gain
`target − average` (linear factor `targetLin·32768/rms`) to every sample,
then the peak-limit step, whose attenuation `limit − peak` brings the loudest
sample exactly to the ceiling before integer rounding; because `audioop.mul`
floors each scaled sample, the output peak can exceed the linear ceiling by
less than one quantization unit and no more:
`maxAbs(output) ≤ 32768·limitLin + 1`. -/
theorem normalize_audio_gain_then_limit_within_quantum
    (samples : List ℤ) (targetLin limitLin : ℚ)
    (h : rmsInt samples ≠ 0) (hl : 0 < limitLin) :
    Normalization.normalize_audio samples targetLin limitLin =
      some (Normalization.apply_peak_limit
        (apply_gain samples
          (targetLin * (fullScale : ℚ) / (rmsInt samples : ℚ))) limitLin) ∧
    (maxAbsSample (Normalization.apply_peak_limit
        (apply_gain samples
          (targetLin * (fullScale : ℚ) / (rmsInt samples : ℚ))) limitLin) : ℚ)
      ≤ (fullScale : ℚ) * limitLin + 1 := by
  constructor
  · rw [Normalization.normalize_audio, if_neg h]
  · exact apply_peak_limit_peak_le _ _ hl

/-- C4 witness: the amended theorem instantiated at the non-silent buffer
`[100, -100]` with linear target 1 and linear limit 1. -/
theorem normalize_audio_gain_then_limit_within_quantum_witness :
    rmsInt [100, -100] ≠ 0 ∧ (0 : ℚ) < 1 ∧
    (Normalization.normalize_audio [100, -100] 1 1 =
      some (Normalization.apply_peak_limit
        (apply_gain [100, -100]
          (1 * (fullScale : ℚ) / (rmsInt [100, -100] : ℚ))) 1) ∧
    (maxAbsSample (Normalization.apply_peak_limit
        (apply_gain [100, -100]
          (1 * (fullScale : ℚ) / (rmsInt [100, -100] : ℚ))) 1) : ℚ)
      ≤ (fullScale : ℚ) * 1 + 1) := by
  have h : rmsInt [100, -100] ≠ 0 := by
    rw [show rmsInt [100, -100] = Nat.sqrt 10000 from rfl]
    norm_num
  exact ⟨h, by norm_num,
    normalize_audio_gain_then_limit_within_quantum [100, -100] 1 1 h
      (by norm_num)⟩

/-- C5: when the buffer's peak is already at or below the ceiling
(`maxAbsSample ≤ 32768·limitLin`, the linear form of
`max_dBFS ≤ peak_limit_dbfs`), both `_apply_peak_limit` and `apply_limiter`
take the no-op branch and return the samples unchanged — the limiter never
amplifies. -/
theorem peak_limit_never_amplifies (samples : List ℤ) (limitLin : ℚ)
    (h : (maxAbsSample samples : ℚ) ≤ (fullScale : ℚ) * limitLin) :
    Normalization.apply_peak_limit samples limitLin = samples ∧
    ClarityEnhancement.apply_limiter samples limitLin = samples := by
  constructor <;>
    simp [Normalization.apply_peak_limit, ClarityEnhancement.apply_limiter,
      not_lt.mpr h]

/-- C5 witness: the limiter leaves `[100, -2000]` untouched at linear
ceiling 1/2 (peak 2000 ≤ 16384). -/
theorem peak_limit_never_amplifies_witness :
    (maxAbsSample [100, -2000] : ℚ) ≤ (fullScale : ℚ) * (1/2) ∧
    (Normalization.apply_peak_limit [100, -2000] (1/2) = [100, -2000] ∧
     ClarityEnhancement.apply_limiter [100, -2000] (1/2) = [100, -2000]) := by
  have h : (maxAbsSample [100, -2000] : ℚ) ≤ (fullScale : ℚ) * (1/2) := by
    simp [maxAbsSample, fullScale]
    norm_num
  exact ⟨h, peak_limit_never_amplifies [100, -2000] (1/2) h⟩

end AudioPipeline

namespace AudioPipeline

/-- C6: standardization is idempotent.  For any external resample /
requantize / remix kernels, a buffer that already has the target sample rate,
a sample width matching the target bit depth (2 bytes for 16, 3 for 24), and
the target channel count passes through `process_audio` bit-identically: the
module guards skip the rate and channel conversions, and pydub
`set_sample_width` returns the segment unchanged when the width matches. -/
theorem standardize_idempotent
    (ratecv lin2lin remix :
      FormatStandardization.AudioBuffer → ℕ → FormatStandardization.AudioBuffer)
    (decode : String → FormatStandardization.AudioBuffer)
    (b : FormatStandardization.AudioBuffer) (R : ℕ) (d : ℤ) (C : ℕ)
    (hR : b.frameRate = R)
    (hd : (d = 16 ∧ b.sampleWidth = 2) ∨ (d = 24 ∧ b.sampleWidth = 3))
    (hC : b.channels = C) :
    FormatStandardization.process_audio ratecv lin2lin remix decode none
      (some b) R d C false = .ok (b, []) := by
  have hsr : FormatStandardization.convert_sample_rate ratecv b R = b := by
    rw [FormatStandardization.convert_sample_rate, if_neg (by simp [hR])]
  have hcc : FormatStandardization.convert_channels remix b C = b := by
    rw [FormatStandardization.convert_channels, if_neg (by simp [hC])]
  have hbd : FormatStandardization.convert_bit_depth lin2lin b d = .ok b := by
    rcases hd with ⟨rfl, hw⟩ | ⟨rfl, hw⟩
    · rw [FormatStandardization.convert_bit_depth, if_pos rfl,
        FormatStandardization.set_sample_width, if_pos hw]
    · rw [FormatStandardization.convert_bit_depth, if_neg (by norm_num),
        if_pos rfl, FormatStandardization.set_sample_width, if_pos hw]
  simp only [FormatStandardization.process_audio, hsr, hbd, hcc]
  simp

/-- C6 witness: a 16 kHz / 16-bit / mono buffer standardized to the same
targets comes back bit-identical. -/
theorem standardize_idempotent_witness :
    (FormatStandardization.AudioBuffer.mk 16000 2 1 [1, 2, 3]).frameRate
        = 16000 ∧
    ((16:ℤ) = 16 ∧
      (FormatStandardization.AudioBuffer.mk 16000 2 1 [1, 2, 3]).sampleWidth
        = 2) ∧
    (FormatStandardization.AudioBuffer.mk 16000 2 1 [1, 2, 3]).channels = 1 ∧
    FormatStandardization.process_audio (fun a _ => a) (fun a _ => a)
      (fun a _ => a) (fun _ => FormatStandardization.AudioBuffer.mk 0 0 0 [])
      none (some (FormatStandardization.AudioBuffer.mk 16000 2 1 [1, 2, 3]))
      16000 16 1 false =
      .ok (FormatStandardization.AudioBuffer.mk 16000 2 1 [1, 2, 3], []) := by
  refine ⟨rfl, ⟨rfl, rfl⟩, rfl, ?_⟩
  exact standardize_idempotent _ _ _ _ _ _ _ _ rfl (Or.inl ⟨rfl, rfl⟩) rfl

/-- C7: `convert_bit_depth` raises the `ValueError` for every target other
than 16 or 24, succeeds for 16 and 24, and the error is never swallowed:
`process_audio` propagates it for any input form, save flag, and other
targets. -/
theorem convert_bit_depth_supported_targets
    (lin2lin :
      FormatStandardization.AudioBuffer → ℕ → FormatStandardization.AudioBuffer)
    (audio : FormatStandardization.AudioBuffer) (d : ℤ) :
    (d ≠ 16 ∧ d ≠ 24 → FormatStandardization.convert_bit_depth lin2lin audio d =
      .error "Only 16-bit and 24-bit conversions are supported.") ∧
    (d = 16 ∨ d = 24 →
      ∃ out, FormatStandardization.convert_bit_depth lin2lin audio d =
        .ok out) ∧
    (d ≠ 16 ∧ d ≠ 24 →
      ∀ (ratecv remix :
          FormatStandardization.AudioBuffer → ℕ →
            FormatStandardization.AudioBuffer)
        (decode : String → FormatStandardization.AudioBuffer)
        (fp : Option String) (R C : ℕ) (save : Bool),
        FormatStandardization.process_audio ratecv lin2lin remix decode fp
          (some audio) R d C save =
          .error "Only 16-bit and 24-bit conversions are supported.") := by
  have herr : ∀ (h1 : d ≠ 16) (h2 : d ≠ 24)
      (a : FormatStandardization.AudioBuffer),
      FormatStandardization.convert_bit_depth lin2lin a d =
        .error "Only 16-bit and 24-bit conversions are supported." := by
    intro h1 h2 a
    rw [FormatStandardization.convert_bit_depth, if_neg h1, if_neg h2]
  refine ⟨fun h => herr h.1 h.2 audio, fun h => ?_, fun h => ?_⟩
  · rcases h with rfl | rfl
    · exact ⟨_, by rw [FormatStandardization.convert_bit_depth, if_pos rfl]⟩
    · exact ⟨_, by rw [FormatStandardization.convert_bit_depth,
        if_neg (by norm_num), if_pos rfl]⟩
  · intro ratecv remix decode fp R C save
    cases fp <;>
      simp only [FormatStandardization.process_audio, herr h.1 h.2]

/-- C7 witness: target 7 is rejected with the source's `ValueError` message
while target 16 succeeds. -/
theorem convert_bit_depth_supported_targets_witness :
    ((7:ℤ) ≠ 16 ∧ (7:ℤ) ≠ 24) ∧
    FormatStandardization.convert_bit_depth (fun a _ => a)
        (FormatStandardization.AudioBuffer.mk 16000 2 1 []) 7 =
      .error "Only 16-bit and 24-bit conversions are supported." ∧
    ((16:ℤ) = 16 ∨ (16:ℤ) = 24) ∧
    (∃ out, FormatStandardization.convert_bit_depth (fun a _ => a)
        (FormatStandardization.AudioBuffer.mk 16000 2 1 []) 16 = .ok out) := by
  refine ⟨⟨by norm_num, by norm_num⟩, ?_, Or.inl rfl, ?_⟩
  · exact (convert_bit_depth_supported_targets _ _ 7).1
      ⟨by norm_num, by norm_num⟩
  · exact (convert_bit_depth_supported_targets _ _ 16).2.1 (Or.inl rfl)

/-- C8: `clarity_enhancement.apply_limiter` and
`normalization._apply_peak_limit` compute the same function — identical
output for every buffer and ceiling. -/
theorem apply_limiter_eq_apply_peak_limit :
    ∀ (samples : List ℤ) (limitLin : ℚ),
      ClarityEnhancement.apply_limiter samples limitLin =
        Normalization.apply_peak_limit samples limitLin :=
  fun _ _ => rfl

/-- C9 (amended): `segment_audio` names and writes the chunks
`{base}_chunk_{i}.wav` with `i` in strict temporal emission order
`0, 1, 2, …` (first and second conjuncts); the driver's inner loop, however,
processes the segmented directory in whatever order `os.listdir` returns it
(third conjunct) — listing order, not emission order. -/
theorem chunks_named_and_driver_listing_order :
    (∀ {α : Type} (decode : String → α) (skipSlice : α → ℕ → α)
        (split : α → List α) (p : String) (a : α) (skip : ℕ)
        (dir fname : String),
      Segmentation.segment_audio decode skipSlice split (some p) (some a)
          skip dir fname =
        .ok (split (skipSlice a skip),
          (List.range (split (skipSlice a skip)).length).map
            (Segmentation.chunkPath dir (baseNameNoExt p)))) ∧
    (∀ (dir base : String) (n : ℕ),
      (List.range n).map (Segmentation.chunkPath dir base) =
        (Driver.chunk_names base n).map (fun nm => dir ++ "/" ++ nm)) ∧
    (∀ (isFile : String → Bool) (listing : List String),
      Driver.driver_chunk_order isFile listing =
        listing.filter (fun f => isFile f && Driver.is_audio_file f)) := by
  refine ⟨?_, ?_, ?_⟩
  · intro α decode skipSlice split p a skip dir fname
    simp only [Segmentation.segment_audio]
    rw [enum_map_index]
    rfl
  · intro dir base n
    rw [Driver.chunk_names, List.map_map]
    refine List.map_congr_left fun i _ => ?_
    simp [Segmentation.chunkPath, String.append_assoc]
  · intro isFile listing
    induction listing with
    | nil => rfl
    | cons f rest ih =>
        rw [Driver.driver_chunk_order, List.filter_cons]
        by_cases h : (isFile f && Driver.is_audio_file f) = true
        · rw [if_pos h, if_pos h, ih]
        · rw [if_neg h, if_neg h, ih]

/-- C9 counterexample: `os.listdir` may return the two emitted chunks of
base `b` as `[b_chunk_1.wav, b_chunk_0.wav]` (a permutation of the emission
order), and the driver then processes chunk 1 before chunk 0 — not the
claimed strict emission order. -/
theorem driver_chunk_order_not_emission_order :
    ["b_chunk_1.wav", "b_chunk_0.wav"].Perm (Driver.chunk_names "b" 2) ∧
    Driver.driver_chunk_order (fun _ => true)
        ["b_chunk_1.wav", "b_chunk_0.wav"] ≠
      Driver.chunk_names "b" 2 := by
  constructor
  · rw [show Driver.chunk_names "b" 2 = ["b_chunk_0.wav", "b_chunk_1.wav"]
      from rfl]
    exact List.Perm.swap _ _ _
  · decide

/-- C10: `segment_audio` has no `save` parameter, and for every input —
in-memory buffer (with or without a path) or path alone — it unconditionally
writes every emitted chunk to `<output_dir>/<base>_chunk_<i>.wav`: the write
list always covers all `chunks.length` chunks. -/
theorem segment_audio_always_persists :
    "save" ∉ Segmentation.segment_audio_params ∧
    (∀ {α : Type} (decode : String → α) (skipSlice : α → ℕ → α)
        (split : α → List α) (fp : Option String) (a : α) (skip : ℕ)
        (dir fname : String),
      Segmentation.segment_audio decode skipSlice split fp (some a)
          skip dir fname =
        .ok (split (skipSlice a skip),
          (List.range (split (skipSlice a skip)).length).map
            (Segmentation.chunkPath dir (Segmentation.segBase fp fname)))) ∧
    (∀ {α : Type} (decode : String → α) (skipSlice : α → ℕ → α)
        (split : α → List α) (p : String) (skip : ℕ) (dir fname : String),
      Segmentation.segment_audio decode skipSlice split (some p) none
          skip dir fname =
        .ok (split (skipSlice (decode p) skip),
          (List.range (split (skipSlice (decode p) skip)).length).map
            (Segmentation.chunkPath dir (baseNameNoExt p)))) := by
  refine ⟨by decide, ?_, ?_⟩
  · intro α decode skipSlice split fp a skip dir fname
    cases fp <;>
      simp only [Segmentation.segment_audio] <;>
      rw [enum_map_index]
  · intro α decode skipSlice split p skip dir fname
    simp only [Segmentation.segment_audio]
    rw [enum_map_index]
    rfl

end AudioPipeline
